import Mathlib

/-!
# Verification of the splash-page animation/geometry runtime

Shallow embedding of the `neeeda-com/splash-page` animation core:
the translate transform store and tween engine
(`src/scripts/logo/_animation-engine.js`), the drag clamping logic
(`src/scripts/logo/_drag.js`), the trail/anchor solver
(`src/scripts/logo/_trail.js`), the reduced-motion preloader branch
(`src/scripts/logo/_animation-flow.js`), the cancellable scale controller
(`src/scripts/logo/_scale.js`), the compact-mode / stroke helpers
(`src/scripts/logo/_compact.js`, `src/scripts/logo/_geometry.js`) and the
radial ring geometry solver (`src/scripts/_radial-box.js`).

Numbers are embedded as exact rationals (`ℚ`) where the source performs
plain arithmetic, and as reals (`ℝ`) where the source uses trigonometric
functions (`Math.cos`, `Math.sin`, `Math.acos`).  A CSS transform string of
the shape written by this code base (`translate(x px, y px) [scale(s)]`) is
embedded structurally by its observable content: an optional translate pair
and an optional preserved scale component.
-/

/-- A 2-D point / offset in CSS pixels. -/
structure Pt where
  x : ℚ
  y : ℚ
deriving DecidableEq, Repr

/-- Structural content of an element's `style.transform` string as written
by `setTranslate` / read by `getTranslate`'s regular expressions:
an optional `translate(x px, y px)` component and an optional preserved
`scale(s)` component. -/
structure Transform where
  translate : Option Pt
  scalePart : Option ℚ
deriving DecidableEq, Repr

/-- Per-element state: the WeakMap translate cache (`__translateStore`)
entry and the rendered transform string. -/
structure ElementState where
  store : Option Pt
  transform : Transform
deriving DecidableEq, Repr

/-- `getTranslate(el)` from `_animation-engine.js`: return the cached
offset if present, otherwise parse the transform string (defaulting to
`{0,0}` when no translate component matches) and cache the result.
Returns the value together with the updated element state (the cache
write is a side effect in the source). -/
def getTranslate (el : ElementState) : Pt × ElementState :=
  match el.store with
  | some cached => (cached, el)
  | none =>
    let res := match el.transform.translate with
      | some p => p
      | none => ⟨0, 0⟩
    (res, { el with store := some res })

/-- The value component of `getTranslate`. -/
def getTranslateVal (el : ElementState) : Pt :=
  (getTranslate el).1

/-- `setTranslate(el, x, y)`: write `translate(x px, y px)` preserving any
existing `scale(...)` component of the transform string, and update the
cache. -/
def setTranslate (el : ElementState) (x y : ℚ) : ElementState :=
  { store := some ⟨x, y⟩
    transform := { translate := some ⟨x, y⟩, scalePart := el.transform.scalePart } }

/-- `incTranslate(el, dx, dy)`: read the current translate and add the
delta. -/
def incTranslate (el : ElementState) (dx dy : ℚ) : ElementState :=
  let p := (getTranslate el).1
  setTranslate (getTranslate el).2 (p.x + dx) (p.y + dy)

namespace Easing

/-- `Easing.power2InOut` from `_animation-engine.js`:
`t < 0.5 ? 2*t*t : 1 - 2*(1-t)*(1-t)`. -/
def power2InOut (t : ℚ) : ℚ :=
  if t < 1/2 then 2 * t * t else 1 - 2 * (1 - t) * (1 - t)

/-- `Easing.power3InOut` from `_animation-engine.js`:
`t < 0.5 ? 4*t*t*t : 1 - (-2*t + 2)**3 / 2`. -/
def power3InOut (t : ℚ) : ℚ :=
  if t < 1/2 then 4 * t * t * t else 1 - (-2 * t + 2) ^ 3 / 2

end Easing

/-- `easingByName` from `_animation-engine.js`: map an easing name to its
function, falling back to the identity. -/
def easingByName (name : String) : ℚ → ℚ :=
  if name = "power2.inOut" then Easing.power2InOut
  else if name = "power3.inOut" then Easing.power3InOut
  else fun t => t

/-- The frame loop of `animateTranslate`: at each `requestAnimationFrame`
timestamp `now`, compute `t = min 1 ((now - start) / (duration * 1000))`,
apply the eased offset, and on `t ≥ 1` snap exactly to `start + delta` and
resolve (returning the element state at resolution).  `none` means the
supplied timestamp stream ended before the animation resolved. -/
def animateFrames (sx sy dx dy start duration : ℚ) (ez : ℚ → ℚ) :
    ElementState → List ℚ → Option ElementState
  | _, [] => none
  | el, now :: rest =>
    let t := min 1 ((now - start) / (duration * 1000))
    let k := ez t
    let el1 := setTranslate el (sx + dx * k) (sy + dy * k)
    if t < 1 then
      animateFrames sx sy dx dy start duration ez el1 rest
    else
      some (setTranslate el1 (sx + dx) (sy + dy))

/-- `animateTranslate(el, dx, dy, {duration, ease})`: capture the start
offset once (caching it), then run the frame loop over the given
`requestAnimationFrame` timestamps.  The result is the element state at
the moment the returned promise resolves. -/
def animateTranslate (el : ElementState) (dx dy duration : ℚ) (ez : ℚ → ℚ)
    (start : ℚ) (times : List ℚ) : Option ElementState :=
  let s := getTranslate el
  animateFrames s.1.x s.1.y dx dy start duration ez s.2 times

/-- A client-coordinate rectangle (as returned by
`getBoundingClientRect`). -/
structure Rect where
  left : ℚ
  top : ℚ
  right : ℚ
  bottom : ℚ
deriving DecidableEq, Repr

/-- Shift a rectangle by an offset (a CSS translate moves the rendered
bounding box rigidly). -/
def shiftRect (r : Rect) (d : Pt) : Rect :=
  ⟨r.left + d.x, r.top + d.y, r.right + d.x, r.bottom + d.y⟩

/-- The translate component the renderer actually applies: the transform
string's translate pair, or zero when absent. -/
def renderTranslate (el : ElementState) : Pt :=
  el.transform.translate.getD ⟨0, 0⟩

/-- `SAFE_AREA_PADDING` from `_constants.js`. -/
def SAFE_AREA_PADDING_desktop : ℚ := 24

/-- `SAFE_AREA_PADDING.mobile` from `_constants.js`. -/
def SAFE_AREA_PADDING_mobile : ℚ := 24

/-- `_clampDelta(minEdge, maxEdge, minLimit, maxLimit)` from `_drag.js`:
the translation delta needed to bring an interval inside limits, summing
the two edge deficits. -/
def clampDelta (minEdge maxEdge minLimit maxLimit : ℚ) : ℚ :=
  (if minEdge < minLimit then minLimit - minEdge else 0) +
  (if maxEdge > maxLimit then maxLimit - maxEdge else 0)

/-- `clampGroupBox(groupNode)` from `_drag.js`.  `svg` is `svgRect()`,
`mobile` is `isMobile()`, and `box0` is the group's bounding client rect
at zero translate, so the measured rect is `box0` shifted by the rendered
translate.  Writes a corrected translate only when `dx || dy` is truthy. -/
def clampGroupBox (svg : Rect) (mobile : Bool) (box0 : Rect)
    (el : ElementState) : ElementState :=
  let margin := if mobile then SAFE_AREA_PADDING_mobile else SAFE_AREA_PADDING_desktop
  let minLeft := svg.left + margin
  let minTop := svg.top + margin
  let maxRight := svg.right - margin
  let maxBottom := svg.bottom - margin
  let g := shiftRect box0 (renderTranslate el)
  let dx := clampDelta g.left g.right minLeft maxRight
  let dy := clampDelta g.top g.bottom minTop maxBottom
  if dx ≠ 0 ∨ dy ≠ 0 then
    let t := (getTranslate el).1
    setTranslate (getTranslate el).2 (t.x + dx) (t.y + dy)
  else el

/-- The safe rectangle: the viewport rect inset by the breakpoint
margin. -/
def safeRect (svg : Rect) (mobile : Bool) : Rect :=
  let margin := if mobile then SAFE_AREA_PADDING_mobile else SAFE_AREA_PADDING_desktop
  ⟨svg.left + margin, svg.top + margin, svg.right - margin, svg.bottom - margin⟩

/-- A box lies fully inside another rectangle. -/
def insideRect (g bounds : Rect) : Prop :=
  bounds.left ≤ g.left ∧ bounds.top ≤ g.top ∧
  g.right ≤ bounds.right ∧ g.bottom ≤ bounds.bottom

instance (g bounds : Rect) : Decidable (insideRect g bounds) := by
  unfold insideRect; infer_instance

/-- Total out-of-bound distance of a box with respect to a bounding
rectangle: the sum of the four edge overshoots. -/
def outOfBound (g bounds : Rect) : ℚ :=
  max 0 (bounds.left - g.left) + max 0 (g.right - bounds.right) +
  max 0 (bounds.top - g.top) + max 0 (g.bottom - bounds.bottom)

/-- One logo group (`v1`/`v2`/`v3`): its element state plus the bounding
client rects, at zero translate, of its node and of its invisible handle
(both children move rigidly with the group's translate). -/
structure GroupG where
  el : ElementState
  box0 : Rect
  handle0 : Rect
deriving DecidableEq, Repr

/-- Measured bounding rect of the group's node. -/
def GroupG.box (g : GroupG) : Rect :=
  shiftRect g.box0 (renderTranslate g.el)

/-- Measured bounding rect of the group's handle. -/
def GroupG.handleBox (g : GroupG) : Rect :=
  shiftRect g.handle0 (renderTranslate g.el)

/-- `centerOf(el)` from `_geometry.js` applied to a group's node. -/
def GroupG.center (g : GroupG) : Pt :=
  ⟨g.box.left + (g.box.right - g.box.left) / 2,
   g.box.top + (g.box.bottom - g.box.top) / 2⟩

/-- Controller state for the preloader / trail / drag mixins.
`screenToSvg` is the identity here because `syncViewBoxToPixels` keeps
1 SVG unit = 1 CSS pixel, and `halfStroke` is the value of
`halfStrokePx()` (the trail uses `vector-effect="non-scaling-stroke"`,
so it is half the stroke-width attribute).  `trailA`/`trailB` hold the
endpoint pairs of the two connector paths (`none` = empty `d`
attribute), `dragOptIn` is the `this.dragOptIn` field (undefined, hence
falsy, everywhere in the repository), and `reducedMotion` is
`prefersReducedMotion()`. -/
structure World where
  svg : Rect
  mobile : Bool
  g1 : GroupG
  g2 : GroupG
  g3 : GroupG
  halfStroke : ℚ
  trailA : Option (Pt × Pt)
  trailB : Option (Pt × Pt)
  loaderDone : Bool
  dragEnabled : Bool
  dragOptIn : Bool
  reducedMotion : Bool
deriving DecidableEq, Repr

/-- `anchorFromHandle(handle)` inside `updateTrail` (`_trail.js`): the
handle's bottom-center point, raised by half the effective connector
stroke width, converted to SVG coordinates (identity conversion, see
`World`). -/
def anchorFromHandle (w : World) (g : GroupG) : Pt :=
  let r := g.handleBox
  ⟨r.left + (r.right - r.left) / 2, r.bottom - w.halfStroke⟩

/-- `updateTrail()` from `_trail.js`: recompute both connector paths
(v1–v2 and v2–v3) from the current handle positions.  (The gradient
endpoints receive the same coordinates and are not modelled
separately.) -/
def updateTrail (w : World) : World :=
  let a := anchorFromHandle w w.g1
  let b := anchorFromHandle w w.g2
  let c := anchorFromHandle w w.g3
  { w with trailA := some (a, b), trailB := some (b, c) }

/-- `anchorTargetsPx()` from `_trail.js`: the three groups' settle target
centers for the current breakpoint. -/
def anchorTargetsPx (w : World) : Pt × Pt × Pt :=
  let r := w.svg
  if w.mobile then
    let g1 := w.g1.box
    let g2 := w.g2.box
    let g3 := w.g3.box
    let w1 := g1.right - g1.left
    let w3 := g3.right - g3.left
    let h1 := g1.bottom - g1.top
    let h2 := g2.bottom - g2.top
    let h3 := g3.bottom - g3.top
    let pad := SAFE_AREA_PADDING_mobile
    let v1cx := r.left + w1 / 2 + pad
    let v3cx := r.right - w3 / 2 - pad
    let v1Right := v1cx + w1 / 2
    let v3Left := v3cx - w3 / 2
    let v2cx := (v1Right + v3Left) / 2
    (⟨v1cx, r.top + h1 / 2 + pad⟩, ⟨v2cx, r.top + h2 / 2 + pad⟩,
      ⟨v3cx, r.top + h3 / 2 + pad⟩)
  else
    let pad := SAFE_AREA_PADDING_desktop
    let targetFor (g : Rect) (corner : String) : Pt :=
      let hw := (g.right - g.left) / 2
      let hh := (g.bottom - g.top) / 2
      if corner = "bl" then ⟨r.left + pad + hw, r.bottom - pad - hh⟩
      else if corner = "tr" then ⟨r.right - pad - hw, r.top + pad + hh⟩
      else ⟨r.right - pad - hw, r.bottom - pad - hh⟩
    (targetFor w.g1.box "bl", targetFor w.g2.box "br", targetFor w.g3.box "tr")

/-- One iteration of the reduced-motion placement loop in
`runPreloader` (`_animation-flow.js` lines 76–82): translate the group so
its center lands on the anchor target, then clamp its box. -/
def placeGroupAtAnchor (svg : Rect) (mobile : Bool) (g : GroupG)
    (tgt : Pt) : GroupG :=
  let c := g.center
  let el1 := incTranslate g.el (tgt.x - c.x) (tgt.y - c.y)
  let el2 := clampGroupBox svg mobile g.box0 el1
  { g with el := el2 }

/-- The reduced-motion branch of `runPreloader`
(`_animation-flow.js` lines 66 and 72–88), taken when
`prefersReducedMotion()` holds: disable drag, place each group at its
anchor target immediately (no tween) and clamp it, update the trail, add
the `loader-done` marker to the body, and set drag listeners according to
`this.dragOptIn`. -/
def runPreloaderReduced (w : World) : World :=
  let w0 := { w with dragEnabled := false }
  let target := anchorTargetsPx w0
  let w1 := { w0 with
    g1 := placeGroupAtAnchor w0.svg w0.mobile w0.g1 target.1
    g2 := placeGroupAtAnchor w0.svg w0.mobile w0.g2 target.2.1
    g3 := placeGroupAtAnchor w0.svg w0.mobile w0.g3 target.2.2 }
  let w2 := updateTrail w1
  { w2 with loaderDone := true, dragEnabled := w2.dragOptIn }

/-- One scale animation handle, as created by
`animateGroupScaleTransform` (`_scale.js`): its token, target scale and
the `cancelled` / `settled` flags, plus whether its promise has been
resolved (by its own frame loop or by `cancel()`). -/
structure Anim where
  token : ℕ
  target : ℚ
  cancelled : Bool
  settled : Bool
  resolved : Bool
deriving DecidableEq, Repr

/-- Scale controller state: `currentGroupScale`, `_scaleAnimCounter`,
all animations started so far (in order), and which of them
`_scaleAnim` currently points at (`none` = null). -/
structure ScaleSys where
  scale : ℚ
  counter : ℕ
  anims : List Anim
  cur : Option ℕ
deriving DecidableEq, Repr

/-- The `this._scaleAnim.cancel()` call at the top of
`animateGroupScaleTransform`: a no-op when the animation has settled;
otherwise mark it cancelled, stop its frame callback, resolve its
promise, and null out `_scaleAnim`. -/
def cancelCurrent (s : ScaleSys) : ScaleSys :=
  match s.cur with
  | none => s
  | some i =>
    match s.anims.get? i with
    | none => s
    | some a =>
      if a.settled then s
      else
        { s with
          anims := s.anims.set i { a with cancelled := true, resolved := true }
          cur := none }

/-- `animateGroupScaleTransform(targetScale)` up to scheduling the first
frame: cancel any running animation, then either resolve immediately when
the target is within `0.0001` of `currentGroupScale`, or allocate a fresh
token (`++this._scaleAnimCounter`), create the animation handle and store
it in `_scaleAnim`. -/
def animateStart (s : ScaleSys) (targetScale : ℚ) : ScaleSys :=
  let s1 := cancelCurrent s
  if |s1.scale - targetScale| < 1/10000 then s1
  else
    let token := s1.counter + 1
    { scale := s1.scale
      counter := token
      anims := s1.anims ++ [⟨token, targetScale, false, false, false⟩]
      cur := some s1.anims.length }

/-- One invocation of the `step` frame callback of animation `i`
(`_scale.js` lines 95–120).  `tGe1` tells whether the clamped elapsed
fraction has reached 1.  A settled animation schedules no further frames
(modelled as a no-op).  A cancelled animation resolves and stops.  A
completing animation commits `currentGroupScale = target` only when it is
not cancelled and its token still equals `_scaleAnimCounter`; frames with
`t < 1` only write visual transforms (not modelled here). -/
def stepFrame (s : ScaleSys) (i : ℕ) (tGe1 : Bool) : ScaleSys :=
  match s.anims.get? i with
  | none => s
  | some a =>
    if a.settled then s
    else if a.cancelled then
      { s with anims := s.anims.set i { a with settled := true, resolved := true } }
    else if tGe1 then
      let s1 := if a.token = s.counter then { s with scale := a.target } else s
      { s1 with anims := s1.anims.set i { a with settled := true, resolved := true } }
    else s

/-- Run a sequence of frame events (animation index, whether `t ≥ 1`). -/
def runEvents (s : ScaleSys) (evs : List (ℕ × Bool)) : ScaleSys :=
  evs.foldl (fun s e => stepFrame s e.1 e.2) s

/-- A fresh controller at scale `s0` with no animation in flight
(`_scaleAnimCounter` initialised to 0, `_scaleAnim` null). -/
def initScaleSys (s0 : ℚ) : ScaleSys := ⟨s0, 0, [], none⟩

/-- A trail segment element (`#segA` / `#segB`): the parsed
`stroke-width` attribute (`none` models a missing or non-numeric
attribute, for which `parseFloat(...) || 47` yields the fallback), the
`vector-effect` attribute, and the optional CTM, represented by the
two scale components `hypot(m.a, m.b)` and `hypot(m.c, m.d)` that
`halfStrokePx` extracts from it. -/
structure TrailSeg where
  strokeWidthAttr : Option ℚ
  vectorEffect : Option String
  ctmSx : Option (ℚ × ℚ)
deriving DecidableEq, Repr

/-- `ve.includes('non-scaling-stroke')`. -/
def hasNonScalingStroke (ve : String) : Bool :=
  2 ≤ (ve.splitOn "non-scaling-stroke").length

/-- `halfStrokePx()` from `_geometry.js`.  The first line reads the
stroke width through optional chaining (`this.trailA?.`), but the second
line dereferences `this.trailA` unconditionally, so a missing trail
element raises a `TypeError` (modelled as `Except.error`). -/
def halfStrokePx (trailA : Option TrailSeg) : Except String ℚ := do
  let sw := match trailA with
    | some seg => match seg.strokeWidthAttr with
      | some v => v
      | none => 47
    | none => 47
  let seg ← match trailA with
    | some seg => Except.ok seg
    | none => Except.error "TypeError: this.trailA is null"
  let ve := seg.vectorEffect.getD ""
  if hasNonScalingStroke ve then
    return sw / 2
  else
    match seg.ctmSx with
    | none => return sw / 2
    | some (sx, sy) => return (sw * ((sx + sy) / 2)) / 2

/-- State touched by `applyTrailStrokeWidth` (`_compact.js`): the two
optional trail segment elements and the compact flag.
`MIN_TRAIL_SW = 24` and `MAX_TRAIL_SW = 48` (from `logo.js`). -/
structure CompactState where
  trailA : Option TrailSeg
  trailB : Option TrailSeg
  logoCompact : Bool
deriving DecidableEq, Repr

/-- `applyTrailStrokeWidth()` from `_compact.js`: a defensive no-op when
either trail segment is missing; otherwise write the stroke width chosen
by the compact flag to both segments. -/
def applyTrailStrokeWidth (st : CompactState) : CompactState :=
  match st.trailA, st.trailB with
  | some a, some b =>
    let sw : ℚ := if st.logoCompact then 24 else 48
    { st with
      trailA := some { a with strokeWidthAttr := some sw }
      trailB := some { b with strokeWidthAttr := some sw } }
  | _, _ => st

/-- JavaScript `parseFloat(...) || fallback`: the fallback replaces a
missing or non-numeric parse (`none`, i.e. `NaN`) and also a zero parse,
because `0` is falsy. -/
noncomputable def parseOr (v : Option ℝ) (fallback : ℝ) : ℝ :=
  match v with
  | none => fallback
  | some x => if x = 0 then fallback else x

/-- Raw inputs of `updateGeometry` (`_radial-box.js`): the `parseFloat`
results of the center button's computed width, the six satellite widths
(indices 0–5), and the `--eps` / `--kiss` custom properties (`none`
models a missing or non-numeric value, which parses to `NaN`), plus the
`--a0` declaration (`none` models an empty declaration; a non-empty
declaration is used as parsed, with no falsy fallback). -/
structure RadialCfg where
  centerWidthRaw : Option ℝ
  btnWidthRaw : ℕ → Option ℝ
  epsRaw : Option ℝ
  kissRaw : Option ℝ
  a0Raw : Option ℝ

namespace RadialCfg

/-- `centerSize = parseFloat(getComputedStyle(centerBtn).width) || 0`. -/
noncomputable def centerSize (c : RadialCfg) : ℝ := parseOr c.centerWidthRaw 0

/-- `btnSizes = btnEls.map((el) => parseFloat(getComputedStyle(el).width) || 0)`. -/
noncomputable def btnSize (c : RadialCfg) (i : ℕ) : ℝ :=
  parseOr (c.btnWidthRaw i) 0

/-- `eps = parseFloat(rs.getPropertyValue('--eps')) || 0.000001`. -/
noncomputable def eps (c : RadialCfg) : ℝ := parseOr c.epsRaw (1/1000000)

/-- `kissPx = parseFloat(rs.getPropertyValue('--kiss')) || 0.5` — a zero
or unparsable `--kiss` falls back to `0.5`, so the effective clearance is
never 0. -/
noncomputable def kiss (c : RadialCfg) : ℝ := parseOr c.kissRaw (1/2)

/-- `a0Deg = a0Decl ? parseFloat(a0Decl) : 175` (ternary on the string
being non-empty, so a declared `--a0: 0` is used as 0). -/
noncomputable def a0Deg (c : RadialCfg) : ℝ := c.a0Raw.getD 175

/-- `cr = centerSize / 2`. -/
noncomputable def cr (c : RadialCfg) : ℝ := c.centerSize / 2

/-- `b = btnSizes.map((s) => s / 2)`. -/
noncomputable def b (c : RadialCfg) (i : ℕ) : ℝ := c.btnSize i / 2

/-- `R = b.map((bi) => Math.max(0, cr + bi - kissPx))`. -/
noncomputable def R (c : RadialCfg) (i : ℕ) : ℝ :=
  max 0 (c.cr + c.b i - c.kiss)

/-- `D[i] = Math.max(0, b[i] + b[i+1] - kissPx)` (neighbor distances that
maintain the kiss clearance). -/
noncomputable def D (c : RadialCfg) (i : ℕ) : ℝ :=
  max 0 (c.b i + c.b (i + 1) - c.kiss)

/-- `deltas[i]`: the angular delta between adjacent satellites via the
law of cosines, denominators guarded by `eps` and the cosine argument
clamped to `[-1, 1]` before `Math.acos`. -/
noncomputable def delta (c : RadialCfg) (i : ℕ) : ℝ :=
  let r1 := max c.eps (c.R i)
  let r2 := max c.eps (c.R (i + 1))
  let d := c.D i
  let num := r1 * r1 + r2 * r2 - d * d
  let den := max c.eps (2 * r1 * r2)
  Real.arccos (min 1 (max (-1) (num / den)))

/-- Absolute angles in radians: `aRad[0] = a0·π/180`,
`aRad[i] = aRad[i-1] + deltas[i-1]`. -/
noncomputable def aRad (c : RadialCfg) : ℕ → ℝ
  | 0 => c.a0Deg * Real.pi / 180
  | n + 1 => c.aRad n + c.delta n

/-- Unrounded satellite center position `(cos(aRad[i])·R[i],
sin(aRad[i])·R[i])` relative to the ring center. -/
noncomputable def posX (c : RadialCfg) (i : ℕ) : ℝ :=
  Real.cos (c.aRad i) * c.R i

/-- Unrounded satellite center y-coordinate. -/
noncomputable def posY (c : RadialCfg) (i : ℕ) : ℝ :=
  Real.sin (c.aRad i) * c.R i

/-- The written `--x` offset: `Math.round(Math.cos(aRad[i]) * R[i])`.
(JavaScript `Math.round` is round-half-up, which is `⌊x + 1/2⌋`, the
Mathlib `round`.) -/
noncomputable def writtenX (c : RadialCfg) (i : ℕ) : ℤ :=
  round (c.posX i)

/-- The written `--y` offset: `Math.round(Math.sin(aRad[i]) * R[i])`. -/
noncomputable def writtenY (c : RadialCfg) (i : ℕ) : ℤ :=
  round (c.posY i)

end RadialCfg

/-- Helper for C4: whatever element state the frame loop starts from, if
it resolves, the cache holds exactly `start + delta`. -/
theorem animateFrames_store (sx sy dx dy start duration : ℚ) (ez : ℚ → ℚ) :
    ∀ (times : List ℚ) (el el' : ElementState),
      animateFrames sx sy dx dy start duration ez el times = some el' →
      el'.store = some ⟨sx + dx, sy + dy⟩ := by
  intro times
  induction times with
  | nil => intro el el' h; simp [animateFrames] at h
  | cons now rest ih =>
    intro el el' h
    rw [animateFrames] at h
    split at h
    · exact ih _ _ h
    · simp only [Option.some.injEq] at h
      subst h
      rfl

/-- C6: for every element and coordinates, `setTranslate` then
`getTranslate` returns exactly `{x, y}`; and for an element with no
cached offset and no matching translate in its transform string,
`getTranslate` returns `{0, 0}`. -/
theorem getTranslate_setTranslate_roundtrip (el : ElementState) (x y : ℚ) :
    (getTranslate (setTranslate el x y)).1 = ⟨x, y⟩ ∧
    (el.store = none → el.transform.translate = none →
      (getTranslate el).1 = ⟨0, 0⟩) := by
  refine ⟨rfl, ?_⟩
  intro h1 h2
  simp [getTranslate, h1, h2]

/-- Witness for C6 at a concrete element and offset. -/
theorem getTranslate_setTranslate_roundtrip_witness :
    (getTranslate (setTranslate ⟨none, ⟨none, none⟩⟩ 3 (-7))).1 = ⟨3, -7⟩ ∧
    (getTranslate (⟨none, ⟨none, none⟩⟩ : ElementState)).1 = ⟨0, 0⟩ :=
  ⟨(getTranslate_setTranslate_roundtrip ⟨none, ⟨none, none⟩⟩ 3 (-7)).1,
   (getTranslate_setTranslate_roundtrip ⟨none, ⟨none, none⟩⟩ 3 (-7)).2 rfl rfl⟩

/-- C7: two successive `incTranslate` calls leave exactly the state of a
single `incTranslate` by the summed deltas. -/
theorem incTranslate_additive (el : ElementState) (dx1 dy1 dx2 dy2 : ℚ) :
    incTranslate (incTranslate el dx1 dy1) dx2 dy2 =
      incTranslate el (dx1 + dx2) (dy1 + dy2) := by
  rcases el with ⟨store, tr, sc⟩
  cases store <;> cases tr <;>
    simp [incTranslate, getTranslate, setTranslate] <;>
    (try constructor) <;> (try ring)

/-- C4: whenever `animateTranslate` resolves, the element's stored offset
is exactly `start + {dx, dy}` (the `t ≥ 1` frame snaps to the exact
endpoint before resolving), for every delta, duration and easing. -/
theorem animateTranslate_exact_endpoint (el : ElementState)
    (dx dy duration : ℚ) (ez : ℚ → ℚ) (start : ℚ) (times : List ℚ)
    (el' : ElementState)
    (h : animateTranslate el dx dy duration ez start times = some el') :
    (getTranslate el').1 =
      ⟨(getTranslate el).1.x + dx, (getTranslate el).1.y + dy⟩ := by
  have hs := animateFrames_store (getTranslate el).1.x (getTranslate el).1.y
    dx dy start duration ez times (getTranslate el).2 el' h
  simp [getTranslate, hs]

/-- Witness for C4: a short animation over one frame timestamp resolves
with the exact endpoint. -/
theorem animateTranslate_exact_endpoint_witness :
    (getTranslate (⟨some ⟨5, 7⟩, some ⟨5, 7⟩, none⟩ : ElementState)).1 =
      ⟨(getTranslate (⟨none, none, none⟩ : ElementState)).1.x + 5,
       (getTranslate (⟨none, none, none⟩ : ElementState)).1.y + 7⟩ :=
  animateTranslate_exact_endpoint ⟨none, none, none⟩ 5 7 (1/1000)
    Easing.power3InOut 0 [1] _ (by
      unfold animateTranslate animateFrames
      norm_num [getTranslate, setTranslate, Easing.power3InOut, min_def])

/-- Helper for C5: cubes preserve order on nonnegative rationals. -/
theorem cube_le_cube_of_le {s t : ℚ} (hs : 0 ≤ s) (hst : s ≤ t) :
    s ^ 3 ≤ t ^ 3 := by
  nlinarith [sq_nonneg s, sq_nonneg t, sq_nonneg (s + t), mul_nonneg hs hs,
    mul_nonneg (hs.trans hst) (hs.trans hst)]

/-- C5: both built-in easings are anchored at the endpoints, monotone
non-decreasing on `[0,1]`, map `[0,1]` into `[0,1]`, and are symmetric
around `t = 1/2`. -/
theorem easing_inOut_props :
    Easing.power2InOut 0 = 0 ∧ Easing.power2InOut 1 = 1 ∧
    Easing.power3InOut 0 = 0 ∧ Easing.power3InOut 1 = 1 ∧
    (∀ s t : ℚ, 0 ≤ s → s ≤ t → t ≤ 1 →
      Easing.power2InOut s ≤ Easing.power2InOut t ∧
      Easing.power3InOut s ≤ Easing.power3InOut t) ∧
    (∀ t : ℚ, 0 ≤ t → t ≤ 1 →
      0 ≤ Easing.power2InOut t ∧ Easing.power2InOut t ≤ 1 ∧
      0 ≤ Easing.power3InOut t ∧ Easing.power3InOut t ≤ 1) ∧
    (∀ t : ℚ, 0 ≤ t → t ≤ 1 →
      Easing.power2InOut (1 - t) = 1 - Easing.power2InOut t ∧
      Easing.power3InOut (1 - t) = 1 - Easing.power3InOut t) := by
  have mono2 : ∀ s t : ℚ, 0 ≤ s → s ≤ t → t ≤ 1 →
      Easing.power2InOut s ≤ Easing.power2InOut t := by
    intro s t hs hst ht
    unfold Easing.power2InOut
    split_ifs with h1 h2 h2
    · nlinarith
    · nlinarith
    · linarith
    · nlinarith
  have mono3 : ∀ s t : ℚ, 0 ≤ s → s ≤ t → t ≤ 1 →
      Easing.power3InOut s ≤ Easing.power3InOut t := by
    intro s t hs hst ht
    unfold Easing.power3InOut
    split_ifs with h1 h2 h2
    · have := cube_le_cube_of_le hs hst
      nlinarith
    · have h1t : s ^ 3 ≤ (1/2 : ℚ) ^ 3 := cube_le_cube_of_le hs (by linarith)
      have h2t : (-2 * t + 2) ^ 3 ≤ 1 ^ 3 :=
        cube_le_cube_of_le (by linarith) (by linarith)
      nlinarith
    · linarith
    · have hc : (-2 * t + 2) ^ 3 ≤ (-2 * s + 2) ^ 3 := by
        have := cube_le_cube_of_le (s := -2 * t + 2) (t := -2 * s + 2)
          (by linarith) (by linarith)
        linarith
      linarith
  refine ⟨by norm_num [Easing.power2InOut], by norm_num [Easing.power2InOut],
    by norm_num [Easing.power3InOut], by norm_num [Easing.power3InOut],
    fun s t hs hst ht => ⟨mono2 s t hs hst ht, mono3 s t hs hst ht⟩,
    ?_, ?_⟩
  · intro t h0 h1
    have e20 : Easing.power2InOut 0 = 0 := by norm_num [Easing.power2InOut]
    have e21 : Easing.power2InOut 1 = 1 := by norm_num [Easing.power2InOut]
    have e30 : Easing.power3InOut 0 = 0 := by norm_num [Easing.power3InOut]
    have e31 : Easing.power3InOut 1 = 1 := by norm_num [Easing.power3InOut]
    refine ⟨?_, ?_, ?_, ?_⟩
    · have := mono2 0 t le_rfl h0 h1; linarith [e20 ▸ this]
    · have := mono2 t 1 h0 h1 le_rfl; linarith [e21 ▸ this]
    · have := mono3 0 t le_rfl h0 h1; linarith [e30 ▸ this]
    · have := mono3 t 1 h0 h1 le_rfl; linarith [e31 ▸ this]
  · intro t h0 h1
    constructor
    · unfold Easing.power2InOut
      rcases lt_trichotomy t (1/2 : ℚ) with hlt | heq | hgt
      · rw [if_neg (by linarith : ¬(1 - t < 1/2)), if_pos hlt]; ring
      · rw [heq]; norm_num
      · rw [if_pos (by linarith : (1 - t) < 1/2),
          if_neg (by linarith : ¬(t < 1/2))]
        ring
    · unfold Easing.power3InOut
      rcases lt_trichotomy t (1/2 : ℚ) with hlt | heq | hgt
      · rw [if_neg (by linarith : ¬(1 - t < 1/2)), if_pos hlt]; ring
      · rw [heq]; norm_num
      · rw [if_pos (by linarith : (1 - t) < 1/2),
          if_neg (by linarith : ¬(t < 1/2))]
        ring

/-- Witness for C5: the easing properties instantiated at concrete
sample points of `[0,1]`. -/
theorem easing_inOut_props_witness :
    (Easing.power2InOut (1/4) ≤ Easing.power2InOut (3/4) ∧
      Easing.power3InOut (1/4) ≤ Easing.power3InOut (3/4)) ∧
    (0 ≤ Easing.power2InOut (1/3) ∧ Easing.power2InOut (1/3) ≤ 1 ∧
      0 ≤ Easing.power3InOut (1/3) ∧ Easing.power3InOut (1/3) ≤ 1) ∧
    (Easing.power2InOut (1 - 1/4) = 1 - Easing.power2InOut (1/4) ∧
      Easing.power3InOut (1 - 1/4) = 1 - Easing.power3InOut (1/4)) :=
  ⟨easing_inOut_props.2.2.2.2.1 (1/4) (3/4) (by norm_num) (by norm_num)
      (by norm_num),
   easing_inOut_props.2.2.2.2.2.1 (1/3) (by norm_num) (by norm_num),
   easing_inOut_props.2.2.2.2.2.2 (1/4) (by norm_num) (by norm_num)⟩

/-- C10: after `updateGeometry` the absolute satellite angles are
non-decreasing in index order for every size configuration and base
angle, because each accumulated delta is an arc-cosine and hence
non-negative. -/
theorem radial_angles_monotone (c : RadialCfg) (n : ℕ) :
    c.aRad n ≤ c.aRad (n + 1) := by
  have h : 0 ≤ c.delta n := by
    unfold RadialCfg.delta
    exact Real.arccos_nonneg _
  show c.aRad n ≤ c.aRad n + c.delta n
  linarith

/-- The concrete ring configuration used to analyse C2: center width 2,
all six satellite widths 2, no `--eps` / `--kiss` declarations (so the
in-function fallbacks yield `eps = 1e-6` and `kiss = 0.5`), and
`--a0: 0` declared.  Then `R_i = cr + b_i - kiss = 3/2`,
`D_i = b_i + b_{i+1} - kiss = 3/2` and every angular delta is
`acos(((3/2)² + (3/2)² - (3/2)²) / (2·(3/2)·(3/2))) = acos(1/2) = π/3`. -/
noncomputable def ringCfgCe : RadialCfg :=
  { centerWidthRaw := some 2, btnWidthRaw := fun _ => some 2,
    epsRaw := none, kissRaw := none, a0Raw := some 0 }

/-- In the C2 analysis configuration `eps` takes its fallback `1e-6`. -/
theorem ringCfgCe_eps : ringCfgCe.eps = 1/1000000 := by
  unfold RadialCfg.eps parseOr ringCfgCe
  norm_num

/-- In the C2 analysis configuration every satellite radius is `3/2`. -/
theorem ringCfgCe_R (i : ℕ) : ringCfgCe.R i = 3/2 := by
  unfold RadialCfg.R RadialCfg.cr RadialCfg.b RadialCfg.centerSize
    RadialCfg.btnSize RadialCfg.kiss parseOr ringCfgCe
  norm_num

/-- In the C2 analysis configuration every tangency distance is `3/2`. -/
theorem ringCfgCe_D (i : ℕ) : ringCfgCe.D i = 3/2 := by
  unfold RadialCfg.D RadialCfg.b RadialCfg.btnSize RadialCfg.kiss parseOr
    ringCfgCe
  norm_num

/-- In the C2 analysis configuration every angular delta is `π/3`. -/
theorem ringCfgCe_delta (i : ℕ) : ringCfgCe.delta i = Real.pi / 3 := by
  have harg : ringCfgCe.delta i = Real.arccos (1/2) := by
    unfold RadialCfg.delta
    rw [ringCfgCe_R, ringCfgCe_R, ringCfgCe_D, ringCfgCe_eps]
    norm_num [max_def, min_def]
  rw [harg,
    show (1/2 : ℝ) = Real.cos (Real.pi / 3) from (Real.cos_pi_div_three).symm]
  exact Real.arccos_cos (by positivity) (by linarith [Real.pi_pos])

/-- Counterexample for C2: in the analysis configuration (center width 2,
satellite widths 2, default `kiss = 0.5`, base angle 0°) the *written*
offsets of satellites 0 and 1 are `round(3/2) = 2, round(0) = 0` and
`round(3/4) = 1, round(3√3/4) = 1` after `Math.round`, whose distance is
`√2 ≈ 1.414`, not the tangency distance `D_0 = 3/2`. -/
theorem ring_written_distance_ce :
    Real.sqrt ((((ringCfgCe.writtenX 0 : ℤ) : ℝ) -
        ((ringCfgCe.writtenX 1 : ℤ) : ℝ)) ^ 2 +
      (((ringCfgCe.writtenY 0 : ℤ) : ℝ) -
        ((ringCfgCe.writtenY 1 : ℤ) : ℝ)) ^ 2) ≠ ringCfgCe.D 0 := by
  have ha0 : ringCfgCe.aRad 0 = 0 := by
    show ringCfgCe.a0Deg * Real.pi / 180 = 0
    show (0:ℝ) * Real.pi / 180 = 0
    ring
  have ha1 : ringCfgCe.aRad 1 = Real.pi / 3 := by
    show ringCfgCe.aRad 0 + ringCfgCe.delta 0 = Real.pi / 3
    rw [ha0, ringCfgCe_delta]
    ring
  have hx0 : ringCfgCe.writtenX 0 = 2 := by
    unfold RadialCfg.writtenX RadialCfg.posX
    rw [ha0, ringCfgCe_R]
    rw [show Real.cos 0 * (3/2) = (3/2 : ℝ) by norm_num]
    rw [round_eq, show (3/2 : ℝ) + 1/2 = ((2:ℤ) : ℝ) by push_cast; norm_num]
    exact Int.floor_intCast 2
  have hy0 : ringCfgCe.writtenY 0 = 0 := by
    unfold RadialCfg.writtenY RadialCfg.posY
    rw [ha0, ringCfgCe_R]
    rw [show Real.sin 0 * (3/2) = ((0:ℤ) : ℝ) by norm_num]
    exact round_intCast 0
  have hx1 : ringCfgCe.writtenX 1 = 1 := by
    unfold RadialCfg.writtenX RadialCfg.posX
    rw [ha1, ringCfgCe_R]
    rw [show Real.cos (Real.pi / 3) * (3/2) = (3/4 : ℝ) by
      rw [Real.cos_pi_div_three]; norm_num]
    rw [round_eq, Int.floor_eq_iff]
    constructor <;> push_cast <;> norm_num
  have hsq3 : (Real.sqrt 3) ^ 2 = 3 := Real.sq_sqrt (by norm_num)
  have hs3lo : (1 : ℝ) ≤ Real.sqrt 3 := by
    nlinarith [Real.sqrt_nonneg 3]
  have hs3hi : Real.sqrt 3 < 2 := by
    nlinarith [Real.sqrt_nonneg 3]
  have hy1 : ringCfgCe.writtenY 1 = 1 := by
    unfold RadialCfg.writtenY RadialCfg.posY
    rw [ha1, ringCfgCe_R]
    rw [show Real.sin (Real.pi / 3) * (3/2) = Real.sqrt 3 * (3/4) by
      rw [Real.sin_pi_div_three]; ring]
    rw [round_eq, Int.floor_eq_iff]
    constructor <;> push_cast <;> nlinarith
  rw [hx0, hy0, hx1, hy1, ringCfgCe_D]
  rw [show (((2:ℤ):ℝ) - ((1:ℤ):ℝ)) ^ 2 + (((0:ℤ):ℝ) - ((1:ℤ):ℝ)) ^ 2 = 2 by
    push_cast; norm_num]
  intro h
  have h2 : (Real.sqrt 2) ^ 2 = 2 := Real.sq_sqrt (by norm_num)
  rw [h] at h2
  norm_num at h2

/-- C2 (amended): for any configuration, whenever the radii dominate the
`eps` guards and the law-of-cosines cosine argument lies in `[-1, 1]` (so
neither the denominator guard nor the clamp bites), the distance between
the *unrounded* centers of adjacent satellites `i` and `i+1` equals
`D_i` exactly; the written offsets additionally pass through
`Math.round` and may deviate by up to a pixel. -/
theorem ring_unrounded_tangency (c : RadialCfg) (i : ℕ)
    (heps : 0 < c.eps) (h1 : c.eps ≤ c.R i) (h2 : c.eps ≤ c.R (i + 1))
    (hden : c.eps ≤ 2 * c.R i * c.R (i + 1))
    (hrange : |c.R i * c.R i + c.R (i + 1) * c.R (i + 1) - c.D i * c.D i| ≤
      2 * c.R i * c.R (i + 1)) :
    Real.sqrt ((c.posX i - c.posX (i + 1)) ^ 2 +
      (c.posY i - c.posY (i + 1)) ^ 2) = c.D i := by
  have hden0 : (0:ℝ) < 2 * c.R i * c.R (i + 1) := lt_of_lt_of_le heps hden
  have habs : |(c.R i * c.R i + c.R (i + 1) * c.R (i + 1) - c.D i * c.D i) /
      (2 * c.R i * c.R (i + 1))| ≤ 1 := by
    rw [abs_div, abs_of_pos hden0]
    exact (div_le_one hden0).mpr hrange
  have hq := abs_le.mp habs
  have hdel : c.delta i = Real.arccos
      ((c.R i * c.R i + c.R (i + 1) * c.R (i + 1) - c.D i * c.D i) /
        (2 * c.R i * c.R (i + 1))) := by
    simp only [RadialCfg.delta]
    rw [max_eq_right h1, max_eq_right h2, max_eq_right hden,
      max_eq_right hq.1, min_eq_right hq.2]
  have hcosd : Real.cos (c.delta i) =
      (c.R i * c.R i + c.R (i + 1) * c.R (i + 1) - c.D i * c.D i) /
        (2 * c.R i * c.R (i + 1)) := by
    rw [hdel]
    exact Real.cos_arccos hq.1 hq.2
  have haR : c.aRad (i + 1) = c.aRad i + c.delta i := rfl
  have hBA : c.aRad (i + 1) - c.aRad i = c.delta i := by rw [haR]; ring
  have hcos : Real.cos (c.delta i) =
      Real.cos (c.aRad (i + 1)) * Real.cos (c.aRad i) +
        Real.sin (c.aRad (i + 1)) * Real.sin (c.aRad i) := by
    rw [← hBA]
    exact Real.cos_sub _ _
  have hqmul : (Real.cos (c.aRad (i + 1)) * Real.cos (c.aRad i) +
        Real.sin (c.aRad (i + 1)) * Real.sin (c.aRad i)) *
        (2 * c.R i * c.R (i + 1)) =
      c.R i * c.R i + c.R (i + 1) * c.R (i + 1) - c.D i * c.D i := by
    rw [← hcos, hcosd]
    field_simp
  have hpyth1 : Real.sin (c.aRad i) ^ 2 + Real.cos (c.aRad i) ^ 2 = 1 :=
    Real.sin_sq_add_cos_sq _
  have hpyth2 : Real.sin (c.aRad (i + 1)) ^ 2 +
      Real.cos (c.aRad (i + 1)) ^ 2 = 1 := Real.sin_sq_add_cos_sq _
  have hkey : (c.posX i - c.posX (i + 1)) ^ 2 +
      (c.posY i - c.posY (i + 1)) ^ 2 = c.D i ^ 2 := by
    simp only [RadialCfg.posX, RadialCfg.posY]
    linear_combination (c.R i) ^ 2 * hpyth1 + (c.R (i + 1)) ^ 2 * hpyth2 - hqmul
  rw [hkey]
  exact Real.sqrt_sq (le_max_left 0 _)

/-- Witness for C2 (amended) at the concrete analysis configuration:
all hypotheses hold and the unrounded adjacent-center distance equals
`D_0 = 3/2`. -/
theorem ring_unrounded_tangency_witness :
    ((0:ℝ) < ringCfgCe.eps ∧ ringCfgCe.eps ≤ ringCfgCe.R 0 ∧
      ringCfgCe.eps ≤ ringCfgCe.R 1 ∧
      ringCfgCe.eps ≤ 2 * ringCfgCe.R 0 * ringCfgCe.R 1 ∧
      |ringCfgCe.R 0 * ringCfgCe.R 0 + ringCfgCe.R 1 * ringCfgCe.R 1 -
        ringCfgCe.D 0 * ringCfgCe.D 0| ≤ 2 * ringCfgCe.R 0 * ringCfgCe.R 1) ∧
    Real.sqrt ((ringCfgCe.posX 0 - ringCfgCe.posX 1) ^ 2 +
      (ringCfgCe.posY 0 - ringCfgCe.posY 1) ^ 2) = ringCfgCe.D 0 := by
  have h0 : (0:ℝ) < ringCfgCe.eps := by rw [ringCfgCe_eps]; norm_num
  have hA : ringCfgCe.eps ≤ ringCfgCe.R 0 := by
    rw [ringCfgCe_R, ringCfgCe_eps]; norm_num
  have hB : ringCfgCe.eps ≤ ringCfgCe.R 1 := by
    rw [ringCfgCe_R, ringCfgCe_eps]; norm_num
  have hC : ringCfgCe.eps ≤ 2 * ringCfgCe.R 0 * ringCfgCe.R 1 := by
    rw [ringCfgCe_R, ringCfgCe_R, ringCfgCe_eps]; norm_num
  have hD : |ringCfgCe.R 0 * ringCfgCe.R 0 + ringCfgCe.R 1 * ringCfgCe.R 1 -
      ringCfgCe.D 0 * ringCfgCe.D 0| ≤ 2 * ringCfgCe.R 0 * ringCfgCe.R 1 := by
    rw [ringCfgCe_R, ringCfgCe_R, ringCfgCe_D, abs_le]
    constructor <;> norm_num
  exact ⟨⟨h0, hA, hB, hC, hD⟩,
    ring_unrounded_tangency ringCfgCe 0 h0 hA hB hC hD⟩

/-- Helper for C3: when the interval fits between the limits, the clamp
delta brings both edges inside. -/
theorem clampDelta_within {minEdge maxEdge minLimit maxLimit : ℚ}
    (hfit : maxEdge - minEdge ≤ maxLimit - minLimit) :
    minLimit ≤ minEdge + clampDelta minEdge maxEdge minLimit maxLimit ∧
    maxEdge + clampDelta minEdge maxEdge minLimit maxLimit ≤ maxLimit := by
  unfold clampDelta
  split_ifs <;> constructor <;> linarith

/-- Helper for C3: an interval already inside the limits gets a zero
clamp delta. -/
theorem clampDelta_eq_zero_of_within {minEdge maxEdge minLimit maxLimit : ℚ}
    (h1 : minLimit ≤ minEdge) (h2 : maxEdge ≤ maxLimit) :
    clampDelta minEdge maxEdge minLimit maxLimit = 0 := by
  unfold clampDelta
  split_ifs <;> linarith

/-- Helper for C3: a box fully inside the bounds has zero out-of-bound
distance. -/
theorem outOfBound_eq_zero_of_inside {g S : Rect} (h : insideRect g S) :
    outOfBound g S = 0 := by
  obtain ⟨h1, h2, h3, h4⟩ := h
  unfold outOfBound
  rw [max_eq_left (by linarith), max_eq_left (by linarith),
    max_eq_left (by linarith), max_eq_left (by linarith)]
  ring

/-- Helper for C3/C9: as long as the translate cache agrees with the
rendered transform, `clampGroupBox` leaves the rendered translate shifted
by exactly the two clamp deltas (which are zero in the no-write
branch). -/
theorem clampGroupBox_render (svg : Rect) (mobile : Bool) (box0 : Rect)
    (el : ElementState) (hcons : (getTranslate el).1 = renderTranslate el) :
    renderTranslate (clampGroupBox svg mobile box0 el) =
      ⟨(renderTranslate el).x +
        clampDelta (shiftRect box0 (renderTranslate el)).left
          (shiftRect box0 (renderTranslate el)).right
          (safeRect svg mobile).left (safeRect svg mobile).right,
       (renderTranslate el).y +
        clampDelta (shiftRect box0 (renderTranslate el)).top
          (shiftRect box0 (renderTranslate el)).bottom
          (safeRect svg mobile).top (safeRect svg mobile).bottom⟩ := by
  simp only [clampGroupBox, safeRect, shiftRect]
  split_ifs
  all_goals first
  | (simp only [renderTranslate, setTranslate, Option.getD_some]
     rw [show (getTranslate el).1 = el.transform.translate.getD ⟨0, 0⟩ from hcons])
  | (rename_i hno
     push_neg at hno
     rw [hno.1, hno.2, add_zero, add_zero])

/-- Helper for C3/C9: a group already fully inside the safe rectangle is
left untouched by `clampGroupBox` (no write at all). -/
theorem clampGroupBox_noop_of_inside (svg : Rect) (mobile : Bool)
    (box0 : Rect) (el : ElementState)
    (h : insideRect (shiftRect box0 (renderTranslate el))
      (safeRect svg mobile)) :
    clampGroupBox svg mobile box0 el = el := by
  obtain ⟨h1, h2, h3, h4⟩ := h
  simp only [safeRect, shiftRect] at h1 h2 h3 h4
  have hdx := clampDelta_eq_zero_of_within h1 h3
  have hdy := clampDelta_eq_zero_of_within h2 h4
  simp only [clampGroupBox, shiftRect]
  rw [if_neg]
  push_neg
  exact ⟨hdx, hdy⟩

/-- C3 (amended): `clampGroupBox` is byte-identical (no write) when the
box is already fully inside the safe rectangle; when the box *fits* in
the safe rectangle (and the translate cache agrees with the rendered
transform), the additive correction reduces the out-of-bound distance to
zero; and the correction is always a rigid shift (box dimensions are
preserved — never an absolute reposition).  A box larger than the safe
rectangle cannot be brought fully inside (see the counterexample). -/
theorem clampGroupBox_amended (svg : Rect) (mobile : Bool) (box0 : Rect)
    (el : ElementState)
    (hcons : (getTranslate el).1 = renderTranslate el)
    (hfitW : box0.right - box0.left ≤
      (safeRect svg mobile).right - (safeRect svg mobile).left)
    (hfitH : box0.bottom - box0.top ≤
      (safeRect svg mobile).bottom - (safeRect svg mobile).top) :
    (insideRect (shiftRect box0 (renderTranslate el)) (safeRect svg mobile) →
      clampGroupBox svg mobile box0 el = el) ∧
    outOfBound (shiftRect box0 (renderTranslate (clampGroupBox svg mobile box0 el)))
      (safeRect svg mobile) = 0 ∧
    (shiftRect box0 (renderTranslate (clampGroupBox svg mobile box0 el))).right -
        (shiftRect box0 (renderTranslate (clampGroupBox svg mobile box0 el))).left =
      (shiftRect box0 (renderTranslate el)).right -
        (shiftRect box0 (renderTranslate el)).left ∧
    (shiftRect box0 (renderTranslate (clampGroupBox svg mobile box0 el))).bottom -
        (shiftRect box0 (renderTranslate (clampGroupBox svg mobile box0 el))).top =
      (shiftRect box0 (renderTranslate el)).bottom -
        (shiftRect box0 (renderTranslate el)).top := by
  refine ⟨fun h => clampGroupBox_noop_of_inside svg mobile box0 el h, ?_, ?_, ?_⟩
  · apply outOfBound_eq_zero_of_inside
    rw [clampGroupBox_render svg mobile box0 el hcons]
    have hW := @clampDelta_within
      (shiftRect box0 (renderTranslate el)).left
      (shiftRect box0 (renderTranslate el)).right
      (safeRect svg mobile).left
      (safeRect svg mobile).right
      (by simp only [shiftRect]; linarith [hfitW])
    have hH := @clampDelta_within
      (shiftRect box0 (renderTranslate el)).top
      (shiftRect box0 (renderTranslate el)).bottom
      (safeRect svg mobile).top
      (safeRect svg mobile).bottom
      (by simp only [shiftRect]; linarith [hfitH])
    simp only [shiftRect] at hW hH
    simp only [insideRect, shiftRect]
    refine ⟨?_, ?_, ?_, ?_⟩ <;> linarith [hW.1, hW.2, hH.1, hH.2]
  · simp only [shiftRect]; ring
  · simp only [shiftRect]; ring

/-- Counterexample for C3: a group box spanning the full viewport width
(0–800 at viewport 800×600, desktop margin 24) is not inside the safe
rectangle, yet the two horizontal deficits cancel (`dx = 24 - 24 = 0`),
so `clampGroupBox` performs no write and the out-of-bound distance stays
48, not zero. -/
theorem clampGroupBox_oversized_ce :
    ¬ insideRect (shiftRect ⟨0, 100, 800, 200⟩
        (renderTranslate ⟨none, none, none⟩)) (safeRect ⟨0, 0, 800, 600⟩ false) ∧
    clampGroupBox ⟨0, 0, 800, 600⟩ false ⟨0, 100, 800, 200⟩ ⟨none, none, none⟩ =
      ⟨none, none, none⟩ ∧
    outOfBound (shiftRect ⟨0, 100, 800, 200⟩ (renderTranslate
        (clampGroupBox ⟨0, 0, 800, 600⟩ false ⟨0, 100, 800, 200⟩
          ⟨none, none, none⟩))) (safeRect ⟨0, 0, 800, 600⟩ false) ≠ 0 := by
  refine ⟨?_, ?_, ?_⟩
  · norm_num [insideRect, shiftRect, safeRect, renderTranslate,
      SAFE_AREA_PADDING_desktop]
  · norm_num [clampGroupBox, clampDelta, shiftRect, renderTranslate,
      SAFE_AREA_PADDING_desktop, SAFE_AREA_PADDING_mobile]
  · norm_num [clampGroupBox, clampDelta, shiftRect, renderTranslate, safeRect,
      outOfBound, max_def, SAFE_AREA_PADDING_desktop, SAFE_AREA_PADDING_mobile]

/-- Witness for C3 (amended): a box already inside the safe rectangle is
untouched, and an out-of-bounds box that fits is brought to zero
out-of-bound distance. -/
theorem clampGroupBox_amended_witness :
    clampGroupBox ⟨0, 0, 800, 600⟩ false ⟨100, 100, 200, 164⟩
      ⟨none, none, none⟩ = ⟨none, none, none⟩ ∧
    outOfBound (shiftRect ⟨0, 0, 100, 64⟩ (renderTranslate
        (clampGroupBox ⟨0, 0, 800, 600⟩ false ⟨0, 0, 100, 64⟩
          ⟨none, none, none⟩))) (safeRect ⟨0, 0, 800, 600⟩ false) = 0 :=
  ⟨(clampGroupBox_amended ⟨0, 0, 800, 600⟩ false ⟨100, 100, 200, 164⟩
      ⟨none, none, none⟩ rfl
      (by norm_num [safeRect, SAFE_AREA_PADDING_desktop])
      (by norm_num [safeRect, SAFE_AREA_PADDING_desktop])).1
      (by norm_num [insideRect, shiftRect, safeRect, renderTranslate,
        SAFE_AREA_PADDING_desktop]),
   (clampGroupBox_amended ⟨0, 0, 800, 600⟩ false ⟨0, 0, 100, 64⟩
      ⟨none, none, none⟩ rfl
      (by norm_num [safeRect, SAFE_AREA_PADDING_desktop])
      (by norm_num [safeRect, SAFE_AREA_PADDING_desktop])).2.1⟩

/-- C8: with the trail element missing (`trailA = null`), `halfStrokePx`
does *not* return normally: its second line dereferences `this.trailA`
without optional chaining and throws a `TypeError` (the line above it
uses `?.`, so the throw is a slip against the documented defensive
no-op policy).  `applyTrailStrokeWidth`, by contrast, is a defensive
no-op whenever either trail segment is missing, as the claim states. -/
theorem halfStrokePx_missing_trail_throws :
    halfStrokePx none = Except.error "TypeError: this.trailA is null" ∧
    (∀ st : CompactState, st.trailA = none ∨ st.trailB = none →
      applyTrailStrokeWidth st = st) := by
  constructor
  · rfl
  · intro st h
    rcases st with ⟨a, b, fl⟩
    rcases h with h | h
    · subst h; cases b <;> rfl
    · subst h; cases a <;> rfl

/-- Witness for C8: `applyTrailStrokeWidth` no-ops on a state with a
missing first trail segment. -/
theorem halfStrokePx_missing_trail_throws_witness :
    applyTrailStrokeWidth
        ⟨none, some ⟨some 47, some "non-scaling-stroke", none⟩, true⟩ =
      ⟨none, some ⟨some 47, some "non-scaling-stroke", none⟩, true⟩ :=
  halfStrokePx_missing_trail_throws.2 _ (Or.inl rfl)

/-- A rectangle with the dimensions of `r` re-centered at `p` (used to
express "the group's box placed at its anchor target"). -/
def rectAtCenter (r : Rect) (p : Pt) : Rect :=
  ⟨p.x - (r.right - r.left) / 2, p.y - (r.bottom - r.top) / 2,
   p.x + (r.right - r.left) / 2, p.y + (r.bottom - r.top) / 2⟩

/-- Helper for C9: `incTranslate` shifts the rendered translate by the
delta whenever the cache agrees with the rendered transform. -/
theorem incTranslate_render (el : ElementState) (dx dy : ℚ)
    (hcons : (getTranslate el).1 = renderTranslate el) :
    renderTranslate (incTranslate el dx dy) =
      ⟨(renderTranslate el).x + dx, (renderTranslate el).y + dy⟩ := by
  simp only [incTranslate, setTranslate, renderTranslate, Option.getD_some]
  rw [show (getTranslate el).1 = el.transform.translate.getD ⟨0, 0⟩ from hcons]

/-- Helper for C9: one loop iteration of the reduced-motion placement
puts the group's center exactly on the target whenever the box placed at
the target lies inside the safe rectangle (so the subsequent clamp does
not move it). -/
theorem placeGroupAtAnchor_center (svg : Rect) (mobile : Bool)
    (g : GroupG) (tgt : Pt)
    (hcons : (getTranslate g.el).1 = renderTranslate g.el)
    (hin : insideRect (rectAtCenter g.box0 tgt) (safeRect svg mobile)) :
    (placeGroupAtAnchor svg mobile g tgt).center = tgt := by
  have hrend := incTranslate_render g.el (tgt.x - g.center.x)
    (tgt.y - g.center.y) hcons
  set el1 := incTranslate g.el (tgt.x - g.center.x) (tgt.y - g.center.y)
    with hel1
  have hbox : shiftRect g.box0 (renderTranslate el1) =
      rectAtCenter g.box0 tgt := by
    rw [hrend]
    simp only [GroupG.center, GroupG.box, shiftRect, rectAtCenter,
      Rect.mk.injEq]
    refine ⟨by ring, by ring, by ring, by ring⟩
  have hnoop := clampGroupBox_noop_of_inside svg mobile g.box0 el1
    (by rw [hbox]; exact hin)
  show (GroupG.mk (clampGroupBox svg mobile g.box0 el1) g.box0
    g.handle0).center = tgt
  rw [hnoop]
  simp only [GroupG.center, GroupG.box]
  rw [hbox]
  rcases tgt with ⟨tx, ty⟩
  simp only [rectAtCenter, Pt.mk.injEq]
  constructor <;> ring

/-- C9 (amended): with the reduced-motion directive active, the reduced
branch of `runPreloader` performs an immediate, non-animated placement:
each group whose anchor-placed box lies inside the safe rectangle ends
centered exactly on its anchor target (after clamping), the trail paths
are recomputed (non-empty), the `loader-done` marker is set — and the
drag listeners are toggled to `this.dragOptIn`, which the repository
never sets, so drag ends disabled rather than enabled. -/
theorem runPreloaderReduced_amended (w : World)
    (hrm : w.reducedMotion = true)
    (hc1 : (getTranslate w.g1.el).1 = renderTranslate w.g1.el)
    (hc2 : (getTranslate w.g2.el).1 = renderTranslate w.g2.el)
    (hc3 : (getTranslate w.g3.el).1 = renderTranslate w.g3.el) :
    (runPreloaderReduced w).loaderDone = true ∧
    (runPreloaderReduced w).dragEnabled = w.dragOptIn ∧
    ((runPreloaderReduced w).trailA.isSome ∧
      (runPreloaderReduced w).trailB.isSome) ∧
    (insideRect (rectAtCenter w.g1.box0 (anchorTargetsPx w).1)
        (safeRect w.svg w.mobile) →
      (runPreloaderReduced w).g1.center = (anchorTargetsPx w).1) ∧
    (insideRect (rectAtCenter w.g2.box0 (anchorTargetsPx w).2.1)
        (safeRect w.svg w.mobile) →
      (runPreloaderReduced w).g2.center = (anchorTargetsPx w).2.1) ∧
    (insideRect (rectAtCenter w.g3.box0 (anchorTargetsPx w).2.2)
        (safeRect w.svg w.mobile) →
      (runPreloaderReduced w).g3.center = (anchorTargetsPx w).2.2) := by
  refine ⟨rfl, rfl, ⟨rfl, rfl⟩, ?_, ?_, ?_⟩
  · intro hin
    have hg : (runPreloaderReduced w).g1 =
        placeGroupAtAnchor w.svg w.mobile w.g1 (anchorTargetsPx w).1 := rfl
    rw [hg]
    exact placeGroupAtAnchor_center w.svg w.mobile w.g1 _ hc1 hin
  · intro hin
    have hg : (runPreloaderReduced w).g2 =
        placeGroupAtAnchor w.svg w.mobile w.g2 (anchorTargetsPx w).2.1 := rfl
    rw [hg]
    exact placeGroupAtAnchor_center w.svg w.mobile w.g2 _ hc2 hin
  · intro hin
    have hg : (runPreloaderReduced w).g3 =
        placeGroupAtAnchor w.svg w.mobile w.g3 (anchorTargetsPx w).2.2 := rfl
    rw [hg]
    exact placeGroupAtAnchor_center w.svg w.mobile w.g3 _ hc3 hin

/-- The concrete world used to analyse C9: desktop 800×600 viewport,
reduced motion active, and `dragOptIn` false — as in the repository,
which never assigns `this.dragOptIn` (an undefined, hence falsy,
field). -/
def worldCe : World :=
  { svg := ⟨0, 0, 800, 600⟩
    mobile := false
    g1 := ⟨⟨none, none, none⟩, ⟨0, 0, 100, 64⟩, ⟨26, 8, 74, 56⟩⟩
    g2 := ⟨⟨none, none, none⟩, ⟨350, 268, 450, 332⟩, ⟨376, 276, 424, 324⟩⟩
    g3 := ⟨⟨none, none, none⟩, ⟨700, 536, 800, 600⟩, ⟨726, 544, 774, 592⟩⟩
    halfStroke := 12
    trailA := none
    trailB := none
    loaderDone := false
    dragEnabled := true
    dragOptIn := false
    reducedMotion := true }

/-- Counterexample for C9: with the reduced-motion directive active and
the repository's (never-assigned, falsy) `dragOptIn`, the reduced
preloader branch ends with drag *disabled*, contradicting "drag is
enabled". -/
theorem runPreloaderReduced_drag_ce :
    worldCe.reducedMotion = true ∧ worldCe.dragOptIn = false ∧
    (runPreloaderReduced worldCe).dragEnabled = false :=
  ⟨rfl, rfl, rfl⟩

/-- Witness for C9 (amended) at the concrete world. -/
theorem runPreloaderReduced_amended_witness :
    (runPreloaderReduced worldCe).loaderDone = true ∧
    (runPreloaderReduced worldCe).dragEnabled = worldCe.dragOptIn :=
  ⟨(runPreloaderReduced_amended worldCe rfl rfl rfl rfl).1,
   (runPreloaderReduced_amended worldCe rfl rfl rfl rfl).2.1⟩

/-- Invariant of the C1 scenario after both `animateGroupScaleTransform`
calls: the counter is 2, animation A (token 1) is cancelled and resolved,
animation B (token 2) is live with its promise resolved exactly when it
has settled, and the committed scale is `b` exactly when B has
settled. -/
def ScaleScenarioInv (s0 a b : ℚ) (s : ScaleSys) : Prop :=
  s.counter = 2 ∧
  ∃ aset bset : Bool,
    s.anims = [⟨1, a, true, aset, true⟩, ⟨2, b, false, bset, bset⟩] ∧
    s.scale = if bset then b else s0

/-- The C1 scenario after B's completion frame has run. -/
def ScaleScenarioDone (s0 a b : ℚ) (s : ScaleSys) : Prop :=
  ScaleScenarioInv s0 a b s ∧
  s.anims.get? 1 = some ⟨2, b, false, true, true⟩ ∧ s.scale = b

/-- Any frame event preserves the C1 scenario invariant. -/
theorem scaleScenario_inv_step {s0 a b : ℚ} {s : ScaleSys}
    (h : ScaleScenarioInv s0 a b s) (i : ℕ) (t : Bool) :
    ScaleScenarioInv s0 a b (stepFrame s i t) := by
  obtain ⟨hc, aset, bset, hanims, hscale⟩ := h
  rcases s with ⟨sc, cnt, anims, cur⟩
  simp only at hc hanims hscale
  subst hc hanims hscale
  match i with
  | 0 =>
    cases aset with
    | false =>
      exact ⟨by simp [stepFrame], true, bset, by simp [stepFrame],
        by simp [stepFrame]⟩
    | true =>
      exact ⟨by simp [stepFrame], true, bset, by simp [stepFrame],
        by simp [stepFrame]⟩
  | 1 =>
    cases bset with
    | false =>
      cases t with
      | false =>
        exact ⟨by simp [stepFrame], aset, false, by simp [stepFrame],
          by simp [stepFrame]⟩
      | true =>
        exact ⟨by simp [stepFrame], aset, true, by simp [stepFrame],
          by simp [stepFrame]⟩
    | true =>
      exact ⟨by simp [stepFrame], aset, true, by simp [stepFrame],
        by simp [stepFrame]⟩
  | n + 2 =>
    exact ⟨by simp [stepFrame], aset, bset, by simp [stepFrame],
      by simp [stepFrame]⟩

/-- Frame events preserve the completed C1 scenario (the committed scale
can no longer change once B has settled). -/
theorem scaleScenario_done_step {s0 a b : ℚ} {s : ScaleSys}
    (h : ScaleScenarioDone s0 a b s) (i : ℕ) (t : Bool) :
    ScaleScenarioDone s0 a b (stepFrame s i t) := by
  obtain ⟨hinv, hB, hscaleb⟩ := h
  have hrest : (stepFrame s i t).anims.get? 1 = some ⟨2, b, false, true, true⟩ ∧
      (stepFrame s i t).scale = b := by
    obtain ⟨hc, aset, bset, hanims, hsc⟩ := hinv
    rcases s with ⟨sc, cnt, anims, cur⟩
    simp only at hc hanims hsc hB hscaleb
    subst hc hanims hsc
    have hbset : bset = true := by
      simp [List.get?] at hB
      exact hB
    subst hbset
    match i with
    | 0 => cases aset <;> constructor <;> simp [stepFrame]
    | 1 => constructor <;> simp [stepFrame]
    | n + 2 => constructor <;> simp [stepFrame]
  exact ⟨scaleScenario_inv_step hinv i t, hrest.1, hrest.2⟩

/-- B's completion frame (`t ≥ 1` for the animation stored at index 1)
commits `currentGroupScale = b` and settles B. -/
theorem scaleScenario_complete {s0 a b : ℚ} {s : ScaleSys}
    (h : ScaleScenarioInv s0 a b s) :
    ScaleScenarioDone s0 a b (stepFrame s 1 true) := by
  obtain ⟨hc, aset, bset, hanims, hsc⟩ := h
  rcases s with ⟨sc, cnt, anims, cur⟩
  simp only at hc hanims hsc
  subst hc hanims hsc
  cases bset with
  | false =>
    exact ⟨⟨by simp [stepFrame], aset, true, by simp [stepFrame],
      by simp [stepFrame]⟩, by simp [stepFrame], by simp [stepFrame]⟩
  | true =>
    exact ⟨⟨by simp [stepFrame], aset, true, by simp [stepFrame],
      by simp [stepFrame]⟩, by simp [stepFrame], by simp [stepFrame]⟩

/-- The completed scenario is absorbing under any further frame events. -/
theorem scaleScenario_done_run {s0 a b : ℚ} :
    ∀ (evs : List (ℕ × Bool)) (s : ScaleSys),
      ScaleScenarioDone s0 a b s →
      ScaleScenarioDone s0 a b (runEvents s evs) := by
  intro evs
  induction evs with
  | nil => intro s h; exact h
  | cons e rest ih =>
    intro s h
    exact ih _ (scaleScenario_done_step h e.1 e.2)

/-- Running any event list that contains B's completion frame reaches the
completed scenario. -/
theorem scaleScenario_run_done {s0 a b : ℚ} :
    ∀ (evs : List (ℕ × Bool)) (s : ScaleSys),
      ScaleScenarioInv s0 a b s → (1, true) ∈ evs →
      ScaleScenarioDone s0 a b (runEvents s evs) := by
  intro evs
  induction evs with
  | nil => intro s _ hmem; cases hmem
  | cons e rest ih =>
    intro s hinv hmem
    rcases List.mem_cons.mp hmem with he | he
    · have hr : runEvents s (e :: rest) =
        runEvents (stepFrame s e.1 e.2) rest := rfl
      rw [hr, ← he]
      exact scaleScenario_done_run rest _ (scaleScenario_complete hinv)
    · exact ih _ (scaleScenario_inv_step hinv e.1 e.2) he

/-- Starting A then B (both targets at least `0.0001` away from the
current scale, B while A is still in flight) yields the explicit
post-start controller state: A cancelled and resolved, B live with
token 2 = counter. -/
theorem scaleScenario_start {s0 a b : ℚ}
    (ha : ¬ |s0 - a| < 1/10000) (hb : ¬ |s0 - b| < 1/10000) :
    animateStart (animateStart (initScaleSys s0) a) b =
      ⟨s0, 2, [⟨1, a, true, false, true⟩, ⟨2, b, false, false, false⟩],
        some 1⟩ := by
  have h1 : animateStart (initScaleSys s0) a =
      ⟨s0, 1, [⟨1, a, false, false, false⟩], some 0⟩ := by
    show (if |s0 - a| < 1/10000 then initScaleSys s0
        else ⟨s0, 1, [⟨1, a, false, false, false⟩], some 0⟩) =
      ⟨s0, 1, [⟨1, a, false, false, false⟩], some 0⟩
    exact if_neg ha
  rw [h1]
  show (if |s0 - b| < 1/10000
      then (⟨s0, 1, [⟨1, a, true, false, true⟩], none⟩ : ScaleSys)
      else ⟨s0, 2, [⟨1, a, true, false, true⟩, ⟨2, b, false, false, false⟩],
        some 1⟩) =
    ⟨s0, 2, [⟨1, a, true, false, true⟩, ⟨2, b, false, false, false⟩], some 1⟩
  exact if_neg hb

/-- C1 (amended): when a second `animateGroupScaleTransform` call starts
while the first animation is in flight, the first is cancelled and its
promise resolved immediately, the second's promise resolves once its
completion frame runs, and — provided the second target differs from the
controller's current scale by at least `0.0001` (otherwise the second
call is an epsilon no-op that cancels the first and leaves the scale
unchanged, see the counterexample) — the committed final scale equals
the second call's target.  Moreover, in any controller state, a
completion frame whose animation token no longer matches the
controller's latest counter never writes `currentGroupScale`. -/
theorem scale_cancellation_latest_wins (s0 a b : ℚ)
    (evs : List (ℕ × Bool))
    (ha : ¬ |s0 - a| < 1/10000) (hb : ¬ |s0 - b| < 1/10000)
    (hmem : (1, true) ∈ evs) :
    (animateStart (animateStart (initScaleSys s0) a) b).anims.get? 0 =
      some ⟨1, a, true, false, true⟩ ∧
    (∃ A, (runEvents (animateStart (animateStart (initScaleSys s0) a) b)
        evs).anims.get? 0 = some A ∧ A.cancelled = true ∧
      A.resolved = true) ∧
    (∃ B, (runEvents (animateStart (animateStart (initScaleSys s0) a) b)
        evs).anims.get? 1 = some B ∧ B.resolved = true) ∧
    (runEvents (animateStart (animateStart (initScaleSys s0) a) b)
      evs).scale = b ∧
    (∀ (s : ScaleSys) (i : ℕ) (anim : Anim),
      s.anims.get? i = some anim → anim.token ≠ s.counter →
      (stepFrame s i true).scale = s.scale) := by
  have hstart := scaleScenario_start ha hb
  have hinv : ScaleScenarioInv s0 a b
      (animateStart (animateStart (initScaleSys s0) a) b) := by
    rw [hstart]
    exact ⟨rfl, false, false, rfl, rfl⟩
  have hdone := scaleScenario_run_done evs _ hinv hmem
  obtain ⟨⟨hc, aset, bset, hanims, hsc⟩, hB, hscale⟩ := hdone
  refine ⟨by rw [hstart]; rfl, ?_, ?_, hscale, ?_⟩
  · exact ⟨⟨1, a, true, aset, true⟩, by rw [hanims]; rfl, rfl, rfl⟩
  · exact ⟨⟨2, b, false, true, true⟩, hB, rfl⟩
  · intro s i anim hget htok
    rcases s with ⟨sc, cnt, anims, cur⟩
    simp only at hget htok
    simp only [stepFrame, hget]
    split_ifs with h1 h2
    · rfl
    · rfl
    · rfl

/-- Counterexample for C1: starting a slow animation A (target 0.5 from
scale 1) and then, while A is in flight, animation B with target
`1.00005` — within the `0.0001` epsilon of the current scale — cancels A
and resolves both promises, but commits nothing: the final scale stays
`1`, not B's target. -/
theorem scale_cancellation_eps_ce :
    ((animateStart (initScaleSys 1) (1/2)).anims.get? 0 =
      some ⟨1, 1/2, false, false, false⟩) ∧
    ((animateStart (animateStart (initScaleSys 1) (1/2))
        (1 + 1/20000)).anims.get? 0 = some ⟨1, 1/2, true, false, true⟩) ∧
    (animateStart (animateStart (initScaleSys 1) (1/2))
        (1 + 1/20000)).scale ≠ 1 + 1/20000 := by
  have ha : ¬ |(1:ℚ) - 1/2| < 1/10000 := by
    rw [show |(1:ℚ) - 1/2| = 1/2 by norm_num [abs]]
    norm_num
  have hb : |(1:ℚ) - (1 + 1/20000)| < 1/10000 := by
    rw [show (1:ℚ) - (1 + 1/20000) = -(1/20000) by ring, abs_neg,
      abs_of_pos (by norm_num)]
    norm_num
  have h1 : animateStart (initScaleSys 1) (1/2) =
      ⟨1, 1, [⟨1, 1/2, false, false, false⟩], some 0⟩ := by
    show (if |(1:ℚ) - 1/2| < 1/10000 then initScaleSys 1
        else ⟨1, 1, [⟨1, 1/2, false, false, false⟩], some 0⟩) =
      ⟨1, 1, [⟨1, 1/2, false, false, false⟩], some 0⟩
    exact if_neg ha
  have h2 : animateStart (animateStart (initScaleSys 1) (1/2))
      (1 + 1/20000) = ⟨1, 1, [⟨1, 1/2, true, false, true⟩], none⟩ := by
    rw [h1]
    show (if |(1:ℚ) - (1 + 1/20000)| < 1/10000
        then (⟨1, 1, [⟨1, 1/2, true, false, true⟩], none⟩ : ScaleSys)
        else ⟨1, 2, [⟨1, 1/2, true, false, true⟩,
          ⟨2, 1 + 1/20000, false, false, false⟩], some 1⟩) =
      ⟨1, 1, [⟨1, 1/2, true, false, true⟩], none⟩
    exact if_pos hb
  refine ⟨by rw [h1]; rfl, by rw [h2]; rfl, ?_⟩
  rw [h2]
  norm_num

/-- Witness for C1 (amended): from scale 1, animation A to 0.5 then
animation B to 2 with a single completion frame for B commits scale 2. -/
theorem scale_cancellation_latest_wins_witness :
    (runEvents (animateStart (animateStart (initScaleSys 1) (1/2)) 2)
      [(1, true)]).scale = 2 :=
  (scale_cancellation_latest_wins 1 (1/2) 2 [(1, true)]
    (by rw [show |(1:ℚ) - 1/2| = 1/2 by norm_num [abs]]; norm_num)
    (by rw [show |(1:ℚ) - 2| = 1 by norm_num [abs]]; norm_num)
    (List.mem_singleton.mpr rfl)).2.2.2.1
